import Mathlib

/-!
Verification of `calendar_builder_full.py` (macro-calendar builder).

Dates are embedded as proleptic-Gregorian rata-die numbers (`toRD`), with
Python's `date.weekday()` convention (Monday = 0).  The dateutil
`relativedelta` pieces used by the script (`day=D`, `weekday=TH(0)` /
`FR(1)`, `months=+1`) are embedded from dateutil's arithmetic, including
the detail that a 0th-occurrence weekday is coerced to the 1st occurrence
(`nth = self.weekday.n or 1`, and `0 or 1 == 1` in Python).

Pandas operations are embedded at the level the script uses them:
`pd.concat` is list append, `drop_duplicates(subset=ks)` keeps the first
occurrence of each key, `sort_values("Date")` is a sort by the date field,
and column selection/renaming in `fetch_live_te` is modelled on the list
of column names.
-/

namespace MacroCalendar

/-- Gregorian leap-year test. -/
def isLeap (y : Nat) : Bool :=
  (y % 4 == 0 && y % 100 != 0) || y % 400 == 0

/-- Length of month `m` (1-12) of year `y`. -/
def daysInMonth (y m : Nat) : Nat :=
  match m with
  | 2 => if isLeap y then 29 else 28
  | 4 | 6 | 9 | 11 => 30
  | _ => 31

/-- A calendar date, as Python's `datetime.date` (year, month, day). -/
structure Date where
  year : Nat
  month : Nat
  day : Nat
deriving DecidableEq, Repr

/-- Days in the months of year `y` strictly before month `m`. -/
def daysBeforeMonth (y m : Nat) : Nat :=
  ((List.range (m - 1)).map (fun i => daysInMonth y (i + 1))).sum

/-- Days in the years strictly before year `y` (proleptic Gregorian). -/
def daysBeforeYear (y : Nat) : Nat :=
  (y - 1) * 365 + (y - 1) / 4 - (y - 1) / 100 + (y - 1) / 400

/-- Rata-die number of a date: 0001-01-01 has number 1. -/
def toRD (d : Date) : Nat :=
  daysBeforeYear d.year + daysBeforeMonth d.year d.month + d.day

/-- Rata-die number as an integer, from year/month/day. -/
def rd (y m d : Nat) : Int :=
  (toRD ⟨y, m, d⟩ : Int)

/-- Python `date.weekday()` on a rata-die number: Monday = 0 … Sunday = 6.
(0001-01-01, rata die 1, was a Monday.) -/
def pyWeekday (x : Int) : Int :=
  (x + 6) % 7

/-- dateutil `relativedelta` weekday adjustment: move `x` to the `n`-th
occurrence of weekday `wd` (Monday = 0).  Embeds dateutil's
`nth = self.weekday.n or 1` (so `n = 0` behaves as `n = 1`) and its
jump-day computation. -/
def applyWeekday (wd : Nat) (n : Int) (x : Int) : Int :=
  let nth : Int := if n = 0 then 1 else n
  let off : Int := ((nth.natAbs - 1) * 7 : Nat)
  if 0 < nth then x + off + (7 - pyWeekday x + wd) % 7
  else x - off - (pyWeekday x - wd) % 7

/-- dateutil `relativedelta(day := base)`: replace the day of month,
clamped to the month's length. -/
def setDay (base : Nat) (d : Date) : Date :=
  ⟨d.year, d.month, min base (daysInMonth d.year d.month)⟩

/-- `monthly_on(weekday_rule, base_day)` applied to date `d`:
`d + relativedelta(day=base_day, weekday=weekday_rule)` where the weekday
rule is occurrence `n` of weekday `wd`.  Returns the rata-die number. -/
def monthly_on (wd : Nat) (n : Int) (base_day : Nat) (d : Date) : Int :=
  applyWeekday wd n (toRD (setDay base_day d))

/-- `d + relativedelta(months=+1)`: advance one month, clamp the day. -/
def addMonths1 (d : Date) : Date :=
  if d.month = 12 then ⟨d.year + 1, 1, min d.day (daysInMonth (d.year + 1) 1)⟩
  else ⟨d.year, d.month + 1, min d.day (daysInMonth d.year (d.month + 1))⟩

/-- `START_STATIC = date(2025, 7, 1)`. -/
def START_STATIC : Date := ⟨2025, 7, 1⟩

/-- `END_STATIC = date(2026, 1, 31)`. -/
def END_STATIC : Date := ⟨2026, 1, 31⟩

/-- One calendar row (a row of the merged event table).  The date is a
rata-die number. -/
structure Row where
  date : Int
  country : String
  event : String
  impact : Nat
  actual : String
  previous : String
  forecast : String
  source : String
deriving DecidableEq, Repr

/-- A static row: blank actual/previous/forecast, source `Static_Schedule`. -/
def mkStaticRow (date : Int) (country event : String) (impact : Nat) : Row :=
  ⟨date, country, event, impact, "", "", "", "Static_Schedule"⟩

/-- `nfp_rule = monthly_on(FR(1), 1)` — first Friday (Friday = weekday 4). -/
def nfp_rule (d : Date) : Int := monthly_on 4 1 1 d

/-- `cpi_rule = monthly_on(TH(0), 10)` (Thursday = weekday 3). -/
def cpi_rule (d : Date) : Int := monthly_on 3 0 10 d

/-- `ppi_rule = monthly_on(TH(0), 12)`. -/
def ppi_rule (d : Date) : Int := monthly_on 3 0 12 d

/-- `retail_rule = monthly_on(TH(0), 14)`. -/
def retail_rule (d : Date) : Int := monthly_on 3 0 14 d

/-- `gdp_rule = monthly_on(TH(0), 28)`. -/
def gdp_rule (d : Date) : Int := monthly_on 3 0 28 d

/-- The five U.S. recurring rows emitted for the month of `cur`. -/
def monthRows (cur : Date) : List Row :=
  [ mkStaticRow (nfp_rule cur) "United States" "Non-Farm Payrolls" 3,
    mkStaticRow (cpi_rule cur) "United States" "Consumer Price Index YoY" 2,
    mkStaticRow (ppi_rule cur) "United States" "Producer Price Index YoY" 2,
    mkStaticRow (retail_rule cur) "United States" "Retail Sales MoM" 2,
    mkStaticRow (gdp_rule cur) "United States" "GDP Advance Estimate QoQ" 3 ]

/-- The `while cur <= END_STATIC` loop of `generate_static`, fuel-bounded
(the fuel given below far exceeds the 7 iterations the constants allow). -/
def staticLoopAux : Nat → Date → List Row
  | 0, _ => []
  | fuel + 1, cur =>
    if toRD cur ≤ toRD END_STATIC then
      monthRows cur ++ staticLoopAux fuel (addMonths1 cur)
    else []

/-- The month anchors visited by the loop (the successive values of `cur`
for which the loop body runs), fuel-bounded like `staticLoopAux`. -/
def staticAnchorsAux : Nat → Date → List Date
  | 0, _ => []
  | fuel + 1, cur =>
    if toRD cur ≤ toRD END_STATIC then cur :: staticAnchorsAux fuel (addMonths1 cur)
    else []

/-- The month anchors of the static window. -/
def staticAnchors : List Date := staticAnchorsAux 100 START_STATIC

/-- The five hardcoded FOMC rows. -/
def fomcRows : List Row :=
  [ mkStaticRow (rd 2025 7 30) "United States" "FOMC Meeting & Rate Decision" 3,
    mkStaticRow (rd 2025 9 17) "United States" "FOMC Meeting & Rate Decision" 3,
    mkStaticRow (rd 2025 11 5) "United States" "FOMC Meeting & Rate Decision" 3,
    mkStaticRow (rd 2025 12 17) "United States" "FOMC Meeting & Rate Decision" 3,
    mkStaticRow (rd 2026 1 28) "United States" "FOMC Meeting & Rate Decision" 3 ]

/-- The five hardcoded ECB rows. -/
def ecbRows : List Row :=
  [ mkStaticRow (rd 2025 7 17) "Euro Area" "ECB Interest Rate Decision" 3,
    mkStaticRow (rd 2025 9 11) "Euro Area" "ECB Interest Rate Decision" 3,
    mkStaticRow (rd 2025 10 23) "Euro Area" "ECB Interest Rate Decision" 3,
    mkStaticRow (rd 2025 12 4) "Euro Area" "ECB Interest Rate Decision" 3,
    mkStaticRow (rd 2026 1 22) "Euro Area" "ECB Interest Rate Decision" 3 ]

/-- The three hardcoded Singapore quarterly-GDP rows. -/
def sgpRows : List Row :=
  [ mkStaticRow (rd 2025 7 12) "Singapore" "GDP Advance Estimate QoQ" 2,
    mkStaticRow (rd 2025 10 11) "Singapore" "GDP Advance Estimate QoQ" 2,
    mkStaticRow (rd 2026 1 10) "Singapore" "GDP Advance Estimate QoQ" 2 ]

/-- `generate_static()`: monthly recurring rows followed by the FOMC, ECB
and Singapore one-off rows. -/
def generate_static : List Row :=
  staticLoopAux 100 START_STATIC ++ fomcRows ++ ecbRows ++ sgpRows

/-- Pandas `drop_duplicates(subset=k)`, generalized: keep each element whose
key is not in `seen` and has not occurred earlier in the list. -/
def dedupOnAux {α κ : Type} [DecidableEq κ] (k : α → κ) (seen : List κ) :
    List α → List α
  | [] => []
  | x :: xs =>
    if k x ∈ seen then dedupOnAux k seen xs
    else x :: dedupOnAux k (k x :: seen) xs

/-- Pandas `drop_duplicates(subset=k)`: keep the first occurrence of each key. -/
def dedupOn {α κ : Type} [DecidableEq κ] (k : α → κ) (l : List α) : List α :=
  dedupOnAux k [] l

/-- The natural key used by `drop_duplicates(subset=["Date","Country","Event"])`. -/
def rowKey (r : Row) : Int × String × String :=
  (r.date, r.country, r.event)

/-- The merged calendar table: `pd.concat([live, static])`,
`drop_duplicates(subset=["Date","Country","Event"])`, `sort_values("Date")`. -/
def combineCalendar (live static : List Row) : List Row :=
  List.insertionSort (fun a b => a.date ≤ b.date) (dedupOn rowKey (live ++ static))

/-- One glossary row (Event, Purpose, Frequency). -/
structure GlossRow where
  event : String
  purpose : String
  frequency : String
deriving DecidableEq, Repr

/-- `combined[["Event"]].drop_duplicates().assign(Purpose="", Frequency="")`:
the distinct event names of the merged table, in first-occurrence order,
each with blank purpose/frequency. -/
def newGlossRows (combined : List Row) : List GlossRow :=
  (dedupOn id (combined.map (fun r => r.event))).map (fun e => ⟨e, "", ""⟩)

/-- `pd.concat([old, new_gloss]).drop_duplicates(subset=["Event"])`. -/
def mergeGlossary (old new : List GlossRow) : List GlossRow :=
  dedupOn (fun g => g.event) (old ++ new)

/-- The workbook `macro_calendar.xlsx` as the script sees it: a Calendar
table, and a Glossary table that may or may not be present as a sheet. -/
structure Workbook where
  calendar : List Row
  hasGlossary : Bool
  glossary : List GlossRow
deriving DecidableEq, Repr

/-- Errors the write step can raise. -/
inductive WriteError
  | fileNotFound
deriving DecidableEq, Repr

/-- The body of `write_excel` once the `pd.ExcelWriter(..., mode="a")`
append-open has succeeded on an existing workbook `wb`: replace the
Calendar sheet with the merged table, read the prior Glossary sheet (empty
when the sheet is absent), merge it with the fresh blank-annotation rows
keeping first occurrences per event name, and replace the Glossary sheet. -/
def writeToWorkbook (wb : Workbook) (live static : List Row) : Workbook :=
  let combined := combineCalendar live static
  let old := if wb.hasGlossary then wb.glossary else []
  { calendar := combined
    hasGlossary := true
    glossary := mergeGlossary old (newGlossRows combined) }

/-- `write_excel(live_df, static_df)` acting on the backing store
(`none` = the workbook file does not exist).  Although line 112 computes
`mode = "a" if EXCEL_FILE.exists() else "w"`, line 114 passes the literal
`mode="a"` to `pd.ExcelWriter`; with the openpyxl engine append mode loads
the existing file and raises `FileNotFoundError` when the file is absent,
so the no-file branch fails before anything is written. -/
def write_excel (store : Option Workbook) (live static : List Row) :
    Except WriteError Workbook :=
  match store with
  | none => .error .fileNotFound
  | some wb => .ok (writeToWorkbook wb live static)

/-- Errors raised inside `fetch_live_te`. -/
inductive FetchError
  | transport
  | timeout
  | httpStatus (code : Nat)
deriving DecidableEq, Repr

/-- Outcome of the `requests.get` call: a transport failure, a timeout, or
an HTTP response with a status code and a parsed JSON body (given here as
already-normalized rows, since only the error path depends on the status). -/
inductive HttpOutcome
  | transportFail
  | timedOut
  | response (status : Nat) (rows : List Row)
deriving DecidableEq, Repr

/-- `requests.Response.raise_for_status()`: raises `HTTPError` exactly for
status codes 400-599. -/
def raise_for_status (status : Nat) : Except FetchError Unit :=
  if 400 ≤ status ∧ status < 600 then .error (.httpStatus status) else .ok ()

/-- `fetch_live_te()` as a function of the network outcome: transport
errors and timeouts propagate from `requests.get`, `raise_for_status`
rejects 4xx/5xx, and otherwise the parsed rows are returned. -/
def fetch_live_te (o : HttpOutcome) : Except FetchError (List Row) :=
  match o with
  | .transportFail => .error .transport
  | .timedOut => .error .timeout
  | .response status rows =>
    match raise_for_status status with
    | .error e => .error e
    | .ok _ => .ok rows

/-- Result of one run of the script. -/
inductive RunResult
  | fetchFailed (e : FetchError)
  | writeFailed (e : WriteError)
  | success (wb : Workbook)
deriving DecidableEq, Repr

/-- The `__main__` block: fetch first, then generate the static table, then
merge-and-persist.  Returns the run result together with the state of the
backing store after the run (unchanged unless the write succeeded). -/
def runMain (o : HttpOutcome) (store : Option Workbook) :
    RunResult × Option Workbook :=
  match fetch_live_te o with
  | .error e => (.fetchFailed e, store)
  | .ok live =>
    match write_excel store live generate_static with
    | .error we => (.writeFailed we, store)
    | .ok wb => (.success wb, some wb)

/-- Is the run result a fetch failure? -/
def isFetchFailure : RunResult → Bool
  | .fetchFailed _ => true
  | _ => false

/-- The `keep` dict of `fetch_live_te`, in Python insertion order:
provider column name ↦ canonical column name. -/
def keepPairs : List (String × String) :=
  [ ("Date", "Date"), ("Country", "Country"), ("Event", "Event"),
    ("Actual", "Actual"), ("Previous", "Previous"),
    ("Forecast", "Forecast"), ("Consensus", "Forecast"),
    ("Importance", "Impact") ]

/-- `live[[c for c in keep if c in live.columns]].rename(columns=keep)` at
the column level: the canonical names of the selected provider columns, in
`keep`-dict order. -/
def normalizeColumns (cols : List String) : List String :=
  (keepPairs.filter (fun p => p.1 ∈ cols)).map (fun p => p.2)

/-- Modelled from the spec: the Thursday falling in the same calendar week
(Monday-started) as the day numbered `x` — the spec's reading of the
"nearest Thursday to day D" rule. -/
def specSameWeekThursday (x : Int) : Int :=
  x - pyWeekday x + 3

/-- Concrete test vector: a live-feed Non-Farm Payrolls row for
2025-08-01 (the spec's merge-dedup example date). -/
def liveNfpRow : Row :=
  ⟨rd 2025 8 1, "United States", "Non-Farm Payrolls", 3,
   "73K", "147K", "110K", "TE_live_2025-07-18"⟩

/-- Concrete test vector: the static Non-Farm Payrolls row for August 2025
(August 1, 2025 is the first Friday of its month). -/
def staticNfpRow : Row :=
  mkStaticRow (rd 2025 8 1) "United States" "Non-Farm Payrolls" 3

/-- Concrete test vector: a glossary row with manually edited purpose. -/
def editedNfpGloss : GlossRow :=
  ⟨"Non-Farm Payrolls", "Employment change", ""⟩

/-- Concrete test vector: an existing workbook whose Glossary sheet holds
the manually edited row. -/
def editedWb : Workbook :=
  ⟨[], true, [editedNfpGloss]⟩

/-- Concrete test vector: an existing workbook with no Glossary sheet. -/
def emptyWb : Workbook :=
  ⟨[], false, []⟩

/-! ### Generic facts about first-occurrence deduplication -/

theorem dedupOnAux_subset {α κ : Type} [DecidableEq κ] (k : α → κ) :
    ∀ (l : List α) (seen : List κ) (x : α), x ∈ dedupOnAux k seen l → x ∈ l := by
  intro l
  induction l with
  | nil => intro seen x h; simp [dedupOnAux] at h
  | cons y ys ih =>
    intro seen x h
    simp only [dedupOnAux] at h
    split at h
    · exact List.mem_cons_of_mem y (ih seen x h)
    · rcases List.mem_cons.mp h with h1 | h2
      · exact h1 ▸ List.mem_cons_self y ys
      · exact List.mem_cons_of_mem y (ih _ x h2)

theorem dedupOnAux_key_not_seen {α κ : Type} [DecidableEq κ] (k : α → κ) :
    ∀ (l : List α) (seen : List κ) (x : α), x ∈ dedupOnAux k seen l → k x ∉ seen := by
  intro l
  induction l with
  | nil => intro seen x h; simp [dedupOnAux] at h
  | cons y ys ih =>
    intro seen x h
    simp only [dedupOnAux] at h
    split at h
    · exact ih seen x h
    · rcases List.mem_cons.mp h with h1 | h2
      · subst h1; assumption
      · intro hx
        exact ih _ x h2 (List.mem_cons_of_mem _ hx)

theorem dedupOnAux_pairwise {α κ : Type} [DecidableEq κ] (k : α → κ) :
    ∀ (l : List α) (seen : List κ),
      (dedupOnAux k seen l).Pairwise (fun a b => k a ≠ k b) := by
  intro l
  induction l with
  | nil => intro seen; simp [dedupOnAux]
  | cons y ys ih =>
    intro seen
    simp only [dedupOnAux]
    split
    · exact ih seen
    · refine List.Pairwise.cons ?_ (ih _)
      intro b hb
      have := dedupOnAux_key_not_seen k ys (k y :: seen) b hb
      intro hk
      exact this (hk ▸ List.mem_cons_self _ _)

theorem dedupOnAux_keys_complete {α κ : Type} [DecidableEq κ] (k : α → κ) :
    ∀ (l : List α) (seen : List κ) (e : κ), e ∈ l.map k → e ∉ seen →
      e ∈ (dedupOnAux k seen l).map k := by
  intro l
  induction l with
  | nil => intro seen e h; simp at h
  | cons y ys ih =>
    intro seen e h hs
    simp only [List.map_cons, List.mem_cons] at h
    simp only [dedupOnAux]
    split
    · rcases h with h1 | h2
      · exact absurd (h1 ▸ ‹k y ∈ seen›) hs
      · exact ih seen e h2 hs
    · rcases h with h1 | h2
      · simp [h1]
      · by_cases he : e = k y
        · simp [he]
        · have : e ∈ (dedupOnAux k (k y :: seen) ys).map k := by
            refine ih _ e h2 ?_
            intro hmem
            rcases List.mem_cons.mp hmem with h3 | h4
            · exact he h3
            · exact hs h4
          simpa using Or.inr this

theorem dedupOnAux_eq_nil_of_keys_seen {α κ : Type} [DecidableEq κ] (k : α → κ) :
    ∀ (l : List α) (seen : List κ), (∀ e ∈ l.map k, e ∈ seen) →
      dedupOnAux k seen l = [] := by
  intro l
  induction l with
  | nil => intro seen _; rfl
  | cons y ys ih =>
    intro seen h
    have hy : k y ∈ seen := h (k y) (by simp)
    simp only [dedupOnAux, if_pos hy]
    exact ih seen (fun e he => h e (by simp [he]))

theorem dedupOnAux_absorb {α κ : Type} [DecidableEq κ] (k : α → κ) :
    ∀ (l₁ : List α) (seen : List κ) (l₂ : List α),
      l₁.Pairwise (fun a b => k a ≠ k b) →
      (∀ x ∈ l₁, k x ∉ seen) →
      (∀ e ∈ l₂.map k, e ∈ seen ∨ e ∈ l₁.map k) →
      dedupOnAux k seen (l₁ ++ l₂) = l₁ := by
  intro l₁
  induction l₁ with
  | nil =>
    intro seen l₂ _ _ hcov
    refine dedupOnAux_eq_nil_of_keys_seen k l₂ seen ?_
    intro e he
    rcases hcov e he with h | h
    · exact h
    · simp at h
  | cons x l₁ ih =>
    intro seen l₂ hpw hseen hcov
    have hx : k x ∉ seen := hseen x (List.mem_cons_self _ _)
    rcases List.pairwise_cons.mp hpw with ⟨hx1, hpw1⟩
    simp only [List.cons_append, dedupOnAux, if_neg hx]
    congr 1
    refine ih (k x :: seen) l₂ hpw1 ?_ ?_
    · intro y hy hmem
      rcases List.mem_cons.mp hmem with h1 | h2
      · exact hx1 y hy h1.symm
      · exact hseen y (List.mem_cons_of_mem _ hy) h2
    · intro e he
      rcases hcov e he with h | h
      · exact Or.inl (List.mem_cons_of_mem _ h)
      · simp only [List.map_cons, List.mem_cons] at h
        rcases h with h1 | h2
        · exact Or.inl (h1 ▸ List.mem_cons_self _ _)
        · exact Or.inr h2

theorem mem_dedupOnAux_left {α κ : Type} [DecidableEq κ] (k : α → κ) :
    ∀ (l₁ : List α) (seen : List κ) (l₂ : List α) (r : α),
      l₁.Pairwise (fun a b => k a ≠ k b) →
      (∀ x ∈ l₁, k x ∉ seen) →
      r ∈ l₁ →
      r ∈ dedupOnAux k seen (l₁ ++ l₂) := by
  intro l₁
  induction l₁ with
  | nil => intro seen l₂ r _ _ hr; simp at hr
  | cons x l₁ ih =>
    intro seen l₂ r hpw hseen hr
    have hx : k x ∉ seen := hseen x (List.mem_cons_self _ _)
    rcases List.pairwise_cons.mp hpw with ⟨hx1, hpw1⟩
    simp only [List.cons_append, dedupOnAux, if_neg hx]
    rcases List.mem_cons.mp hr with h1 | h2
    · exact h1 ▸ List.mem_cons_self _ _
    · refine List.mem_cons_of_mem _ (ih (k x :: seen) l₂ r hpw1 ?_ h2)
      intro y hy hmem
      rcases List.mem_cons.mp hmem with hm1 | hm2
      · exact hx1 y hy hm1.symm
      · exact hseen y (List.mem_cons_of_mem _ hy) hm2

theorem mem_dedupOnAux_right {α κ : Type} [DecidableEq κ] (k : α → κ) :
    ∀ (l₂ : List α) (seen : List κ) (r : α),
      r ∈ l₂ → (l₂.map k).Nodup → k r ∉ seen →
      r ∈ dedupOnAux k seen l₂ := by
  intro l₂
  induction l₂ with
  | nil => intro seen r hr; simp at hr
  | cons y ys ih =>
    intro seen r hr hnd hs
    rw [List.map_cons] at hnd
    rcases List.nodup_cons.mp hnd with ⟨hy, hnd1⟩
    simp only [dedupOnAux]
    rcases List.mem_cons.mp hr with h1 | h2
    · subst h1
      rw [if_neg hs]
      exact List.mem_cons_self _ _
    · split
      · exact ih seen r h2 hnd1 hs
      · refine List.mem_cons_of_mem _ (ih _ r h2 hnd1 ?_)
        intro hmem
        rcases List.mem_cons.mp hmem with hm1 | hm2
        · exact hy (hm1 ▸ List.mem_map_of_mem k h2)
        · exact hs hm2

theorem mem_dedupOnAux_append_right {α κ : Type} [DecidableEq κ] (k : α → κ) :
    ∀ (l₁ : List α) (seen : List κ) (l₂ : List α) (r : α),
      r ∈ l₂ → (l₂.map k).Nodup → k r ∉ seen → k r ∉ l₁.map k →
      r ∈ dedupOnAux k seen (l₁ ++ l₂) := by
  intro l₁
  induction l₁ with
  | nil =>
    intro seen l₂ r hr hnd hs _
    exact mem_dedupOnAux_right k l₂ seen r hr hnd hs
  | cons x l₁ ih =>
    intro seen l₂ r hr hnd hs hk
    simp only [List.map_cons, List.mem_cons] at hk
    push_neg at hk
    simp only [List.cons_append, dedupOnAux]
    split
    · exact ih seen l₂ r hr hnd hs hk.2
    · refine List.mem_cons_of_mem _ (ih _ l₂ r hr hnd ?_ hk.2)
      intro hmem
      rcases List.mem_cons.mp hmem with hm1 | hm2
      · exact hk.1 hm1
      · exact hs hm2

theorem dedupOnAux_mem_left_of_key {α κ : Type} [DecidableEq κ] (k : α → κ) :
    ∀ (l₁ : List α) (seen : List κ) (l₂ : List α) (r : α),
      r ∈ dedupOnAux k seen (l₁ ++ l₂) → k r ∈ l₁.map k → r ∈ l₁ := by
  intro l₁
  induction l₁ with
  | nil => intro seen l₂ r _ hk; simp at hk
  | cons x l₁ ih =>
    intro seen l₂ r hr hk
    simp only [List.map_cons, List.mem_cons] at hk
    simp only [List.cons_append, dedupOnAux] at hr
    split at hr
    · rcases hk with h1 | h2
      · have := dedupOnAux_key_not_seen k (l₁ ++ l₂) seen r hr
        exact absurd (h1 ▸ ‹k x ∈ seen›) this
      · exact List.mem_cons_of_mem _ (ih seen l₂ r hr h2)
    · rcases List.mem_cons.mp hr with h1 | h2
      · exact h1 ▸ List.mem_cons_self _ _
      · have hns := dedupOnAux_key_not_seen k (l₁ ++ l₂) _ r h2
        rcases hk with hk1 | hk2
        · exact absurd (hk1 ▸ List.mem_cons_self _ _) hns
        · exact List.mem_cons_of_mem _ (ih _ l₂ r h2 hk2)

theorem pairwise_key_eq {α κ : Type} (k : α → κ) :
    ∀ (l : List α), l.Pairwise (fun a b => k a ≠ k b) →
      ∀ a ∈ l, ∀ b ∈ l, k a = k b → a = b := by
  intro l
  induction l with
  | nil => intro _ a ha; simp at ha
  | cons x l ih =>
    intro hpw a ha b hb hk
    rcases List.pairwise_cons.mp hpw with ⟨hx, hpw1⟩
    rcases List.mem_cons.mp ha with ha1 | ha2 <;> rcases List.mem_cons.mp hb with hb1 | hb2
    · exact ha1.trans hb1.symm
    · exact absurd (ha1 ▸ hk) (hx b hb2)
    · exact absurd (hb1 ▸ hk.symm) (hx a ha2)
    · exact ih hpw1 a ha2 b hb2 hk

/-! ### Helper lemmas about the glossary merge and live-feed columns -/

theorem mergeGlossary_absorb (old new : List GlossRow) :
    mergeGlossary (mergeGlossary old new) new = mergeGlossary old new := by
  show dedupOnAux (fun g => g.event) []
      (dedupOnAux (fun g => g.event) [] (old ++ new) ++ new)
    = dedupOnAux (fun g => g.event) [] (old ++ new)
  refine dedupOnAux_absorb (fun g => g.event) _ [] new
    (dedupOnAux_pairwise _ (old ++ new) []) (by simp) ?_
  intro e he
  refine Or.inr (dedupOnAux_keys_complete (fun g => g.event) (old ++ new) [] e ?_ (by simp))
  rw [List.map_append]
  exact List.mem_append_right _ he

theorem count_map_snd_filterKeep (cols : List String) (t : String) :
    ∀ ps : List (String × String),
      ((ps.filter (fun p => p.1 ∈ cols)).map (fun p => p.2)).count t
        = (ps.filter (fun p => p.1 ∈ cols ∧ p.2 = t)).length := by
  intro ps
  induction ps with
  | nil => rfl
  | cons a ps ih =>
    by_cases h : a.1 ∈ cols
    · by_cases h2 : a.2 = t
      · simp [List.filter_cons, h, h2, List.count_cons, ih]
      · simp [List.filter_cons, h, h2, List.count_cons, ih]
    · simp [List.filter_cons, h, ih]

theorem normalize_count_forecast (cols : List String) :
    (normalizeColumns cols).count "Forecast"
      = (if "Forecast" ∈ cols then 1 else 0)
        + (if "Consensus" ∈ cols then 1 else 0) := by
  rw [normalizeColumns, count_map_snd_filterKeep]
  by_cases hF : "Forecast" ∈ cols <;> by_cases hC : "Consensus" ∈ cols <;>
    simp [keepPairs, List.filter_cons, hF, hC]

/-! ### Claim theorems -/

/-- C1: on a first run (the workbook file does not exist) `write_excel`
fails with `FileNotFoundError` instead of creating the backing store:
line 114 hardcodes `mode="a"` in the `pd.ExcelWriter` call rather than
using the `mode` variable computed on line 112, and openpyxl append mode
requires an existing file.  Nothing is persisted. -/
theorem write_excel_first_run_fails :
    write_excel none [] generate_static = .error .fileNotFound := rfl

/-- C2 counterexample: the claim says the nearest-Thursday rule returns
the Thursday in the same calendar week as day D.  For D = 12 and the
July 2025 anchor, day 12 is a Saturday whose week's Thursday is July 10,
but the rule returns July 17. -/
theorem thursday_rule_not_same_week :
    ppi_rule ⟨2025, 7, 1⟩ ≠ specSameWeekThursday (rd 2025 7 12)
    ∧ ppi_rule ⟨2025, 7, 1⟩ = rd 2025 7 17
    ∧ specSameWeekThursday (rd 2025 7 12) = rd 2025 7 10 := by decide

/-- C2 amended: for every month anchor and rule day D ∈ {10, 12, 14, 28},
the rule `monthly_on(TH(0), D)` returns the first Thursday on or after day
D of the anchor's month (dateutil coerces a 0th occurrence to the 1st):
the result is 0-6 days after day D, and is a Thursday.  It never falls
before day D. -/
theorem thursday_rule_first_on_or_after (d : Date) (D : Nat)
    (hD : D ∈ [10, 12, 14, 28]) :
    (toRD (setDay D d) : Int) ≤ monthly_on 3 0 D d
    ∧ monthly_on 3 0 D d ≤ (toRD (setDay D d) : Int) + 6
    ∧ pyWeekday (monthly_on 3 0 D d) = 3 := by
  simp only [monthly_on, applyWeekday, pyWeekday]
  norm_num
  omega

/-- C2 amended, witness at D = 10 for the July 2025 anchor (day 10 of that
month is itself a Thursday, so the rule stays on it). -/
theorem thursday_rule_first_on_or_after_witness :
    (10 : Nat) ∈ [10, 12, 14, 28]
    ∧ ((toRD (setDay 10 ⟨2025, 7, 1⟩) : Int) ≤ monthly_on 3 0 10 ⟨2025, 7, 1⟩
       ∧ monthly_on 3 0 10 ⟨2025, 7, 1⟩ ≤ (toRD (setDay 10 ⟨2025, 7, 1⟩) : Int) + 6
       ∧ pyWeekday (monthly_on 3 0 10 ⟨2025, 7, 1⟩) = 3) :=
  ⟨by decide, thursday_rule_first_on_or_after ⟨2025, 7, 1⟩ 10 (by decide)⟩

/-- C4: with the fixed boundaries (July 1, 2025 through January 31, 2026)
the static generator produces exactly 48 rows: 5 recurring U.S. rows for
each of the 7 covered months (35 rows), plus 5 FOMC rows, 5 ECB rows and
3 Singapore rows. -/
theorem generate_static_counts :
    generate_static.length = 48
    ∧ staticAnchors.length = 7
    ∧ (generate_static.filter (fun r => r.country == "United States"
        && (r.event == "Non-Farm Payrolls"
            || r.event == "Consumer Price Index YoY"
            || r.event == "Producer Price Index YoY"
            || r.event == "Retail Sales MoM"
            || r.event == "GDP Advance Estimate QoQ"))).length = 35
    ∧ (generate_static.filter
        (fun r => r.event == "FOMC Meeting & Rate Decision")).length = 5
    ∧ (generate_static.filter
        (fun r => r.event == "ECB Interest Rate Decision")).length = 5
    ∧ (generate_static.filter (fun r => r.country == "Singapore")).length = 3 := by
  decide

/-- C9: for every month anchor in the static window, the Non-Farm
Payrolls date (first Friday, anchored at day 1) falls within days 1-7 of
that same nominal month — it never rolls into an adjacent month. -/
theorem nfp_within_first_week :
    ∀ a ∈ staticAnchors,
      (toRD ⟨a.year, a.month, 1⟩ : Int) ≤ nfp_rule a
      ∧ nfp_rule a ≤ (toRD ⟨a.year, a.month, 7⟩ : Int) := by decide

/-- C9 witness at the July 2025 anchor (NFP lands on July 4, 2025). -/
theorem nfp_within_first_week_witness :
    (⟨2025, 7, 1⟩ : Date) ∈ staticAnchors
    ∧ ((toRD ⟨2025, 7, 1⟩ : Int) ≤ nfp_rule ⟨2025, 7, 1⟩
       ∧ nfp_rule ⟨2025, 7, 1⟩ ≤ (toRD ⟨2025, 7, 7⟩ : Int)) :=
  ⟨by decide, nfp_within_first_week ⟨2025, 7, 1⟩ (by decide)⟩

/-- C3: for every live and static row set, the merged Calendar table has
at most one row per (date, country, event) key, and whenever a live row
and a static row share a key, the key's retained row is a live row (live
rows are concatenated before static rows and the first occurrence is
kept). -/
theorem merged_calendar_unique_live_wins (live static : List Row) :
    (combineCalendar live static).Pairwise (fun a b => rowKey a ≠ rowKey b)
    ∧ ∀ l ∈ live, ∀ s ∈ static, rowKey l = rowKey s →
        ((∃ r ∈ combineCalendar live static, rowKey r = rowKey l)
         ∧ ∀ r ∈ combineCalendar live static, rowKey r = rowKey l → r ∈ live) := by
  have hperm :
      List.Perm
        (List.insertionSort (fun a b => a.date ≤ b.date)
          (dedupOn rowKey (live ++ static)))
        (dedupOn rowKey (live ++ static)) :=
    List.perm_insertionSort _ _
  constructor
  · refine (hperm.pairwise_iff ?_).mpr (dedupOnAux_pairwise rowKey (live ++ static) [])
    intro a b h hk
    exact h hk.symm
  · intro l hl s hs hk
    constructor
    · have hkey : rowKey l ∈ (live ++ static).map rowKey :=
        List.mem_map_of_mem rowKey (List.mem_append_left _ hl)
      have hmem :=
        dedupOnAux_keys_complete rowKey (live ++ static) [] (rowKey l) hkey (by simp)
      rcases List.mem_map.mp hmem with ⟨r, hr, hrk⟩
      exact ⟨r, hperm.mem_iff.mpr hr, hrk⟩
    · intro r hr hrk
      have hr2 : r ∈ dedupOn rowKey (live ++ static) := hperm.mem_iff.mp hr
      have hkl : rowKey r ∈ live.map rowKey := by
        rw [hrk]
        exact List.mem_map_of_mem rowKey hl
      exact dedupOnAux_mem_left_of_key rowKey live [] static r hr2 hkl

/-- C3 witness: a live and a static Non-Farm Payrolls row sharing the key
(2025-08-01, United States, Non-Farm Payrolls) — the merged table keeps
exactly the live row for that key. -/
theorem merged_calendar_unique_live_wins_witness :
    (liveNfpRow ∈ [liveNfpRow] ∧ staticNfpRow ∈ [staticNfpRow]
      ∧ rowKey liveNfpRow = rowKey staticNfpRow)
    ∧ (∃ r ∈ combineCalendar [liveNfpRow] [staticNfpRow],
        rowKey r = rowKey liveNfpRow)
    ∧ ∀ r ∈ combineCalendar [liveNfpRow] [staticNfpRow],
        rowKey r = rowKey liveNfpRow → r ∈ [liveNfpRow] :=
  ⟨⟨by decide, by decide, by decide⟩,
   ((merged_calendar_unique_live_wins [liveNfpRow] [staticNfpRow]).2
      liveNfpRow (by decide) staticNfpRow (by decide) (by decide)).1,
   ((merged_calendar_unique_live_wins [liveNfpRow] [staticNfpRow]).2
      liveNfpRow (by decide) staticNfpRow (by decide) (by decide)).2⟩

/-- C10: the static table has pairwise-distinct (date, country, event)
keys, and consequently the merge-step dedup never removes a static row
whose key does not collide with a live row. -/
theorem static_keys_unique_no_dedup_loss :
    (generate_static.map rowKey).Nodup
    ∧ ∀ (live : List Row) (r : Row), r ∈ generate_static →
        rowKey r ∉ live.map rowKey → r ∈ combineCalendar live generate_static := by
  have hnd : (generate_static.map rowKey).Nodup := by decide
  refine ⟨hnd, ?_⟩
  intro live r hr hk
  have hmem : r ∈ dedupOn rowKey (live ++ generate_static) :=
    mem_dedupOnAux_append_right rowKey live [] generate_static r hr hnd (by simp) hk
  exact ((List.perm_insertionSort _ _).mem_iff).mpr hmem

/-- C10 witness: the August 2025 static NFP row survives the merge when
the live set is empty. -/
theorem static_keys_unique_no_dedup_loss_witness :
    (staticNfpRow ∈ generate_static
      ∧ rowKey staticNfpRow ∉ ([] : List Row).map rowKey)
    ∧ staticNfpRow ∈ combineCalendar [] generate_static :=
  ⟨⟨by decide, by decide⟩,
   static_keys_unique_no_dedup_loss.2 [] staticNfpRow (by decide) (by decide)⟩

/-- C5: running the merge-and-persist step twice with identical live and
static inputs leaves the Glossary table unchanged after the second run,
and the persisted glossary never holds two rows with the same event
name. -/
theorem glossary_idempotent (wb : Workbook) (live static : List Row) :
    (writeToWorkbook (writeToWorkbook wb live static) live static).glossary
      = (writeToWorkbook wb live static).glossary
    ∧ (writeToWorkbook wb live static).glossary.Pairwise
        (fun a b => a.event ≠ b.event) := by
  constructor
  · exact mergeGlossary_absorb (if wb.hasGlossary then wb.glossary else [])
      (newGlossRows (combineCalendar live static))
  · exact dedupOnAux_pairwise (fun g : GlossRow => g.event)
      ((if wb.hasGlossary then wb.glossary else [])
        ++ newGlossRows (combineCalendar live static)) []

/-- C6: an existing glossary row (carrying manual purpose/frequency
edits) for an event name still present in the merged table is kept by the
next run, and it is the only glossary row for that event name — the
freshly generated blank row for the same event is dropped. -/
theorem glossary_preserves_manual_edits (wb : Workbook) (live static : List Row)
    (g : GlossRow)
    (hsheet : wb.hasGlossary = true)
    (hnd : wb.glossary.Pairwise (fun a b => a.event ≠ b.event))
    (hg : g ∈ wb.glossary)
    (hev : g.event ∈ (combineCalendar live static).map (fun r => r.event)) :
    g ∈ (writeToWorkbook wb live static).glossary
    ∧ ∀ g2 ∈ (writeToWorkbook wb live static).glossary,
        g2.event = g.event → g2 = g := by
  have hgl : (writeToWorkbook wb live static).glossary
      = dedupOnAux (fun x => x.event) []
          (wb.glossary ++ newGlossRows (combineCalendar live static)) := by
    simp [writeToWorkbook, mergeGlossary, dedupOn, hsheet]
  have hgmem : g ∈ dedupOnAux (fun x : GlossRow => x.event) []
      (wb.glossary ++ newGlossRows (combineCalendar live static)) :=
    mem_dedupOnAux_left _ wb.glossary [] _ g hnd (by simp) hg
  constructor
  · rw [hgl]
    exact hgmem
  · intro g2 hg2 hk
    rw [hgl] at hg2
    exact pairwise_key_eq (fun x : GlossRow => x.event) _
      (dedupOnAux_pairwise _ _ []) g2 hg2 g hgmem hk

/-- C6 witness: a workbook whose glossary holds the manually edited
Non-Farm Payrolls row; after a run with empty live data the edited row is
kept, and it is the only Non-Farm Payrolls glossary row. -/
theorem glossary_preserves_manual_edits_witness :
    (editedWb.hasGlossary = true
      ∧ editedWb.glossary.Pairwise (fun a b => a.event ≠ b.event)
      ∧ editedNfpGloss ∈ editedWb.glossary
      ∧ editedNfpGloss.event
          ∈ (combineCalendar [] generate_static).map (fun r => r.event))
    ∧ editedNfpGloss ∈ (writeToWorkbook editedWb [] generate_static).glossary
    ∧ ∀ g2 ∈ (writeToWorkbook editedWb [] generate_static).glossary,
        g2.event = editedNfpGloss.event → g2 = editedNfpGloss :=
  ⟨⟨rfl, by simp [editedWb], by simp [editedWb], by decide⟩,
   (glossary_preserves_manual_edits editedWb [] generate_static editedNfpGloss
      rfl (by simp [editedWb]) (by simp [editedWb]) (by decide)).1,
   (glossary_preserves_manual_edits editedWb [] generate_static editedNfpGloss
      rfl (by simp [editedWb]) (by simp [editedWb]) (by decide)).2⟩

/-- C7 counterexample: the claim says any non-2xx status aborts the run
with a fetch error before any write, but `raise_for_status` only raises
for statuses 400-599.  A 300 response does not abort: the run proceeds
and writes the store. -/
theorem non2xx_not_always_fatal :
    isFetchFailure (runMain (.response 300 []) (some emptyWb)).1 = false
    ∧ (runMain (.response 300 []) (some emptyWb)).2 ≠ some emptyWb := by decide

/-- C7 amended: on a transport error, a timeout, or an HTTP status in
400-599 (the statuses `raise_for_status` raises for), the run fails with
the propagated fetch error before the static generation and write steps:
the backing store is unchanged and no calendar is produced. -/
theorem run_aborts_on_fetch_error :
    (∀ store : Option Workbook,
      runMain .transportFail store = (.fetchFailed .transport, store))
    ∧ (∀ store : Option Workbook,
      runMain .timedOut store = (.fetchFailed .timeout, store))
    ∧ ∀ (status : Nat) (rows : List Row) (store : Option Workbook),
        400 ≤ status → status < 600 →
        runMain (.response status rows) store
          = (.fetchFailed (.httpStatus status), store) := by
  refine ⟨fun store => rfl, fun store => rfl, ?_⟩
  intro s rows store h1 h2
  simp [runMain, fetch_live_te, raise_for_status, h1, h2]

/-- C7 amended, witness at a 503 response with the store absent. -/
theorem run_aborts_on_fetch_error_witness :
    (400 ≤ 503 ∧ 503 < 600)
    ∧ runMain (.response 503 []) none = (.fetchFailed (.httpStatus 503), none) :=
  ⟨by decide, run_aborts_on_fetch_error.2.2 503 [] none (by decide) (by decide)⟩

/-- C8 counterexample: when the provider supplies both a Forecast and a
Consensus column, normalization does not prefer Forecast — it keeps both
columns and renames both to Forecast, leaving a duplicated canonical
Forecast column. -/
theorem normalization_keeps_both_forecast_columns :
    (normalizeColumns ["Date", "Country", "Event", "Actual", "Previous",
        "Forecast", "Consensus", "Importance"]).count "Forecast" = 2
    ∧ normalizeColumns ["Date", "Country", "Event", "Actual", "Previous",
        "Forecast", "Consensus", "Importance"]
      = ["Date", "Country", "Event", "Actual", "Previous",
         "Forecast", "Forecast", "Impact"] := by decide

/-- C8 amended: when the provider supplies exactly one of Forecast and
Consensus, that column fills the single canonical Forecast field (so
Consensus acts as a fallback when Forecast is absent); a provider
Importance column is mapped into the Impact field.  When both Forecast
and Consensus are present, both are kept and renamed (see the
counterexample), so no preference is applied. -/
theorem normalization_forecast_fallback_and_impact (cols : List String) :
    ("Forecast" ∈ cols → "Consensus" ∉ cols →
      (normalizeColumns cols).count "Forecast" = 1)
    ∧ ("Forecast" ∉ cols → "Consensus" ∈ cols →
      (normalizeColumns cols).count "Forecast" = 1)
    ∧ ("Importance" ∈ cols → "Impact" ∈ normalizeColumns cols) := by
  refine ⟨?_, ?_, ?_⟩
  · intro h1 h2
    rw [normalize_count_forecast]
    simp [h1, h2]
  · intro h1 h2
    rw [normalize_count_forecast]
    simp [h1, h2]
  · intro h
    rw [normalizeColumns]
    have hpair : (("Importance", "Impact") : String × String)
        ∈ keepPairs.filter (fun p => p.1 ∈ cols) :=
      List.mem_filter.mpr ⟨by simp [keepPairs], by simpa using h⟩
    exact List.mem_map_of_mem (fun p : String × String => p.2) hpair

/-- C8 amended, witness: a provider response carrying Consensus but not
Forecast fills the canonical Forecast field once and maps Importance to
Impact. -/
theorem normalization_forecast_fallback_witness :
    ("Forecast" ∉ ["Date", "Consensus", "Importance"]
      ∧ "Consensus" ∈ ["Date", "Consensus", "Importance"]
      ∧ "Importance" ∈ ["Date", "Consensus", "Importance"])
    ∧ (normalizeColumns ["Date", "Consensus", "Importance"]).count "Forecast" = 1
    ∧ "Impact" ∈ normalizeColumns ["Date", "Consensus", "Importance"] :=
  ⟨by decide,
   (normalization_forecast_fallback_and_impact _).2.1 (by decide) (by decide),
   (normalization_forecast_fallback_and_impact _).2.2 (by decide)⟩

end MacroCalendar
